import Mathlib

/-!
Verification of the image-to-popup encoder and popup assembly of
`src/IntMap.py` (Leeghwaterplas interactive map generator).

The Python function `load_images_to_map` is embedded shallowly: the
filesystem and the imaging library's failure behaviour become an explicit
environment (`FS`), the mutable state of the loop (the input dictionary,
the dictionary being built, the lines printed, and the files opened)
becomes an explicit state record (`PyState`), and the deterministic parts
of the external imaging library (`thumbnail`, `save`) and of `base64` are
modelled as executable functions faithful to their documented behaviour.
-/

/-- A decoded raster image: its pixel dimensions and abstract pixel data
(a list of byte values).  Stands for a `PIL.Image.Image` object. -/
structure Image where
  width : Nat
  height : Nat
  data : List Nat
deriving DecidableEq, Repr

/-- Round `a / b` to the nearest natural number (halves round up);
`rnd a 0 = 0`.  Used to model the aspect-ratio rounding that
`PIL Image.thumbnail` performs with floating-point arithmetic. -/
def rnd (a b : Nat) : Nat := (2 * a + b) / (2 * b)

/-- Modelled from the library documentation of `PIL Image.thumbnail((400, 400))`
(line 33 of `src/IntMap.py`): if the image already fits in a 400 x 400 box it
is left unchanged (no upscaling); otherwise it is shrunk, preserving the
aspect ratio up to rounding, so that the larger dimension becomes 400 and the
other is the proportionally rounded value, clamped to be at least 1.
Pixel data is kept abstract (unchanged by resizing in this model). -/
def Image.thumbnail (img : Image) : Image :=
  if img.width ≤ 400 ∧ img.height ≤ 400 then img
  else if img.width ≤ img.height then
    { img with width := max 1 (rnd (400 * img.width) img.height), height := 400 }
  else
    { img with width := 400, height := max 1 (rnd (400 * img.height) img.width) }

/-- Modelled from the library: the bytes produced by `img.save(buffer, format=...)`
(line 36 of `src/IntMap.py`).  The real JPEG/PNG codestream is abstracted to an
injective serialization that records the image dimensions (two bytes each,
little-endian; exact for the post-thumbnail dimensions, which are below 2^16),
a tag for the chosen format, and the pixel data. -/
def Image.save (img : Image) (format_type : String) : List Nat :=
  [img.width % 256, img.width / 256 % 256, img.height % 256, img.height / 256 % 256]
    ++ format_type.toList.map Char.toNat
    ++ img.data.map (fun b => b % 256)

/-- Width recorded in the header of a saved image byte string. -/
def savedWidth (bs : List Nat) : Nat := bs.getD 0 0 + 256 * bs.getD 1 0

/-- Height recorded in the header of a saved image byte string. -/
def savedHeight (bs : List Nat) : Nat := bs.getD 2 0 + 256 * bs.getD 3 0

/-- The standard base64 alphabet, in index order. -/
def b64chars : List Char :=
  [ 'A', 'B', 'C', 'D', 'E', 'F', 'G', 'H', 'I', 'J', 'K', 'L', 'M',
    'N', 'O', 'P', 'Q', 'R', 'S', 'T', 'U', 'V', 'W', 'X', 'Y', 'Z',
    'a', 'b', 'c', 'd', 'e', 'f', 'g', 'h', 'i', 'j', 'k', 'l', 'm',
    'n', 'o', 'p', 'q', 'r', 's', 't', 'u', 'v', 'w', 'x', 'y', 'z',
    '0', '1', '2', '3', '4', '5', '6', '7', '8', '9', '+', '/']

/-- Character for a sextet value (base64 alphabet). -/
def b64char (n : Nat) : Char := b64chars.getD n 'A'

/-- Sextet value of a base64 alphabet character. -/
def b64val (c : Char) : Nat := b64chars.indexOf c

/-- Modelled from the library: standard base64 encoding of a byte list,
as performed by `base64.b64encode` (line 37 of `src/IntMap.py`).  Inputs
are masked to byte range.  Three input bytes become four output characters;
a final group of one or two bytes is padded with `=`. -/
def b64encodeBytes : List Nat → List Char
  | [] => []
  | [b1] =>
    let c1 := b1 % 256
    [ b64char (c1 / 4), b64char (c1 % 4 * 16), '=', '=']
  | [b1, b2] =>
    let c1 := b1 % 256
    let c2 := b2 % 256
    [ b64char (c1 / 4), b64char (c1 % 4 * 16 + c2 / 16), b64char (c2 % 16 * 4), '=']
  | b1 :: b2 :: b3 :: rest =>
    let c1 := b1 % 256
    let c2 := b2 % 256
    let c3 := b3 % 256
    [ b64char (c1 / 4), b64char (c1 % 4 * 16 + c2 / 16),
      b64char (c2 % 16 * 4 + c3 / 64), b64char (c3 % 64)] ++ b64encodeBytes rest

/-- Standard base64 decoding (four characters at a time, honouring `=`
padding); inverse of `b64encodeBytes`. -/
def b64decodeChars : List Char → List Nat
  | c1 :: c2 :: c3 :: c4 :: rest =>
    let v1 := b64val c1
    let v2 := b64val c2
    if c3 = '=' then [v1 * 4 + v2 / 16]
    else
      let v3 := b64val c3
      if c4 = '=' then [v1 * 4 + v2 / 16, v2 % 16 * 16 + v3 / 4]
      else
        [v1 * 4 + v2 / 16, v2 % 16 * 16 + v3 / 4, v3 % 4 * 64 + b64val c4]
          ++ b64decodeChars rest
  | _ => []

/-- Base64 encoding as a string, as `base64.b64encode(...).decode('utf-8')`. -/
def b64encode (bs : List Nat) : String := String.mk (b64encodeBytes bs)

/-- Base64 decoding of a string payload. -/
def b64decode (s : String) : List Nat := b64decodeChars s.toList

/-- ASCII lowercasing of a string, modelling Python `str.lower()` on the
ASCII strings that occur here (file-name extensions, `'JPEG'`, `'PNG'`). -/
def str_lower (s : String) : String := String.mk (s.toList.map Char.toLower)

/-- The final path component: the characters after the last path separator
(`/` or `\`), modelling `pathlib.PurePath.name`. -/
def pathNameChars (p : List Char) : List Char :=
  p.foldl (fun acc c => if c = '/' ∨ c = '\\' then [] else acc ++ [c]) []

/-- Index of the last occurrence of a character in a list, if any. -/
def rfindIdx (c : Char) : List Char → Option Nat
  | [] => none
  | x :: xs =>
    match rfindIdx c xs with
    | some i => some (i + 1)
    | none => if x = c then some 0 else none

/-- Modelled from `pathlib.PurePath.suffix`: the extension of the final path
component, that is the substring from the last dot on, provided that dot is
neither the first nor the last character of the component; otherwise the
empty string. -/
def pathSuffix (p : String) : String :=
  let name := pathNameChars p.toList
  match rfindIdx '.' name with
  | some i => if 0 < i ∧ i < name.length - 1 then String.mk (name.drop i) else ""
  | none => ""

/-- Line 35 of `src/IntMap.py`:
`'JPEG' if img_path.suffix.lower() in ['.jpg', '.jpeg'] else 'PNG'`. -/
def format_type (img_path : String) : String :=
  if str_lower (pathSuffix img_path) = ".jpg" ∨ str_lower (pathSuffix img_path) = ".jpeg"
  then "JPEG" else "PNG"

/-- The fixed placeholder URL of lines 41 and 43 of `src/IntMap.py`. -/
def placeholder : String := "https://via.placeholder.com/180x120.jpg"

/-- The diagnostic line printed on a processing failure
(line 40 of `src/IntMap.py`). -/
def failMsg (img_path e : String) : String :=
  "Failed to process " ++ img_path ++ ": " ++ e

/-- Environment supplying the effectful and fallible external calls of
`load_images_to_map`: which paths exist (`Path.exists`), what
`PIL.Image.open` yields for a path (an image, or the message of the raised
exception), and whether saving a given image in a given format raises
(`some` error message) or succeeds (`none`). -/
structure FS where
  pathExists : String → Bool
  openImage : String → Except String Image
  saveErr : Image → String → Option String

/-- Result of processing one path in the inner loop of `load_images_to_map`
(lines 30-43 of `src/IntMap.py`): the string appended to `img_srcs`, the
diagnostic lines printed, and the paths on which a read (`Image.open`)
was attempted. -/
structure Handled where
  src : String
  printed : List String
  reads : List String
deriving DecidableEq, Repr

/-- One iteration of the inner loop of `load_images_to_map`
(lines 30-43 of `src/IntMap.py`), statement by statement:
if the path does not exist, append the placeholder without reading;
otherwise attempt `Image.open`, `thumbnail`, and `save`; on success append
the data URI, on any failure print the diagnostic and append the
placeholder. -/
def handle_path (fs : FS) (img_path : String) : Handled :=
  if fs.pathExists img_path then
    match fs.openImage img_path with
    | Except.ok img =>
      let img := img.thumbnail
      match fs.saveErr img (format_type img_path) with
      | none =>
        let encoded := b64encode (img.save (format_type img_path))
        { src := "data:image/" ++ str_lower (format_type img_path) ++ ";base64," ++ encoded
          printed := []
          reads := [img_path] }
      | some e =>
        { src := placeholder, printed := [failMsg img_path e], reads := [img_path] }
    | Except.error e =>
      { src := placeholder, printed := [failMsg img_path e], reads := [img_path] }
  else
    { src := placeholder, printed := [], reads := [] }

/-- The `img_srcs` list built by the inner loop for one name. -/
def img_srcs (fs : FS) (paths : List String) : List String :=
  paths.map (fun p => (handle_path fs p).src)

/-- The diagnostic lines printed while processing one name's paths. -/
def printed_of (fs : FS) (paths : List String) : List String :=
  paths.flatMap (fun p => (handle_path fs p).printed)

/-- The paths on which a read was attempted while processing one name. -/
def reads_of (fs : FS) (paths : List String) : List String :=
  paths.flatMap (fun p => (handle_path fs p).reads)

/-- Python dictionary assignment `d[k] = v` on an insertion-ordered
association list: overwrite in place if the key is present, else append. -/
def dictInsert (m : List (String × List String)) (k : String) (v : List String) :
    List (String × List String) :=
  if m.any (fun kv => kv.1 = k) then
    m.map (fun kv => if kv.1 = k then (k, v) else kv)
  else m ++ [(k, v)]

/-- Python dictionary lookup `d[k]` / `k in d` on an insertion-ordered
association list. -/
def dictGet (m : List (String × List String)) (k : String) : Option (List String) :=
  (m.find? (fun kv => kv.1 = k)).map (fun kv => kv.2)

/-- The mutable state visible to `load_images_to_map`: the input dictionary
`marker_images_paths`, the dictionary `image_map` being built, the lines
printed so far, and the paths read so far. -/
structure PyState where
  marker_images_paths : List (String × List String)
  image_map : List (String × List String)
  printed : List String
  reads : List String
deriving DecidableEq, Repr

/-- One iteration of the outer loop of `load_images_to_map`
(lines 27-44 of `src/IntMap.py`): build `img_srcs` for one name and
execute `image_map[name] = img_srcs`. -/
def load_body (fs : FS) (s : PyState) (nv : String × List String) : PyState :=
  { s with
    image_map := dictInsert s.image_map nv.1 (img_srcs fs nv.2)
    printed := s.printed ++ printed_of fs nv.2
    reads := s.reads ++ reads_of fs nv.2 }

/-- `load_images_to_map` (lines 24-45 of `src/IntMap.py`): start from an
empty `image_map` and run the outer loop over the items of the input
dictionary in order. -/
def load_images_to_map (fs : FS) (st : PyState) : PyState :=
  st.marker_images_paths.foldl (load_body fs) { st with image_map := [] }

/-- The state at entry of `load_images_to_map`: the given input dictionary,
nothing printed, nothing read. -/
def initState (input : List (String × List String)) : PyState :=
  { marker_images_paths := input, image_map := [], printed := [], reads := [] }

/-- The keys of an association list, in order. -/
def keys (m : List (String × List String)) : List String := m.map Prod.fst

/-! ### Base64 round-trip -/

theorem b64val_b64char_all : ∀ n < 64, b64val (b64char n) = n := by decide

theorem b64char_ne_pad : ∀ n < 64, b64char n ≠ '=' := by decide

theorem b64_roundtrip : ∀ bs : List Nat,
    b64decodeChars (b64encodeBytes bs) = bs.map (fun b => b % 256)
  | [] => rfl
  | [b1] => by
    have h1 : b1 % 256 / 4 < 64 := by omega
    have h2 : b1 % 256 % 4 * 16 < 64 := by omega
    simp only [b64encodeBytes, b64decodeChars, List.map, if_true]
    rw [b64val_b64char_all _ h1, b64val_b64char_all _ h2]
    simp only [List.cons.injEq, and_true]
    omega
  | [b1, b2] => by
    have h1 : b1 % 256 / 4 < 64 := by omega
    have h2 : b1 % 256 % 4 * 16 + b2 % 256 / 16 < 64 := by omega
    have h3 : b2 % 256 % 16 * 4 < 64 := by omega
    simp only [b64encodeBytes, b64decodeChars, List.map]
    rw [if_neg (b64char_ne_pad _ h3)]
    simp only [if_true]
    rw [b64val_b64char_all _ h1, b64val_b64char_all _ h2, b64val_b64char_all _ h3]
    simp only [List.cons.injEq, and_true]
    refine ⟨by omega, by omega⟩
  | b1 :: b2 :: b3 :: rest => by
    have h1 : b1 % 256 / 4 < 64 := by omega
    have h2 : b1 % 256 % 4 * 16 + b2 % 256 / 16 < 64 := by omega
    have h3 : b2 % 256 % 16 * 4 + b3 % 256 / 64 < 64 := by omega
    have h4 : b3 % 256 % 64 < 64 := by omega
    have ih := b64_roundtrip rest
    simp only [b64encodeBytes, List.cons_append, List.nil_append, List.append_eq,
      b64decodeChars, List.map]
    rw [if_neg (b64char_ne_pad _ h3), if_neg (b64char_ne_pad _ h4),
      b64val_b64char_all _ h1, b64val_b64char_all _ h2, b64val_b64char_all _ h3,
      b64val_b64char_all _ h4, ih]
    simp only [List.cons.injEq]
    refine ⟨by omega, by omega, by omega, trivial⟩

/-! ### Thumbnail bounds -/

theorem rnd_le {a b c : Nat} (hb : 0 < b) (h : a ≤ c * b) : rnd a b ≤ c := by
  obtain ⟨b', rfl⟩ : ∃ b', b = b' + 1 := ⟨b - 1, by omega⟩
  unfold rnd
  rw [Nat.div_le_iff_le_mul_add_pred (by omega)]
  have he : 2 * (b' + 1) - 1 = 2 * b' + 1 := by omega
  rw [he]
  nlinarith

theorem thumbnail_le (img : Image) :
    img.thumbnail.width ≤ 400 ∧ img.thumbnail.height ≤ 400 := by
  unfold Image.thumbnail
  split_ifs with h1 h2
  · exact h1
  · rw [not_and_or] at h1
    have hb : 0 < img.height := by omega
    have hr : rnd (400 * img.width) img.height ≤ 400 := rnd_le hb (by omega)
    exact ⟨max_le (by omega) hr, le_refl 400⟩
  · rw [not_and_or] at h1
    have hb : 0 < img.width := by omega
    have hr : rnd (400 * img.height) img.width ≤ 400 := rnd_le hb (by omega)
    exact ⟨le_refl 400, max_le (by omega) hr⟩

theorem thumbnail_no_upscale (img : Image)
    (h : img.width ≤ 400 ∧ img.height ≤ 400) : img.thumbnail = img := by
  unfold Image.thumbnail
  rw [if_pos h]

theorem thumbnail_aspect (img : Image)
    (h1 : img.height ≤ 800 * img.width) (h2 : img.width ≤ 800 * img.height) :
    2 * (img.thumbnail.width * img.height) ≤
        2 * (img.width * img.thumbnail.height) + max img.width img.height ∧
    2 * (img.width * img.thumbnail.height) ≤
        2 * (img.thumbnail.width * img.height) + max img.width img.height := by
  unfold Image.thumbnail
  split_ifs with hsm hle
  · exact ⟨Nat.le_add_right _ _, Nat.le_add_right _ _⟩
  · dsimp only
    rw [not_and_or] at hsm
    have hq1 : 1 ≤ rnd (400 * img.width) img.height := by
      unfold rnd
      rw [Nat.one_le_div_iff (by omega)]
      omega
    rw [Nat.max_eq_right hq1, Nat.max_eq_right hle]
    unfold rnd
    have e := Nat.div_add_mod (2 * (400 * img.width) + img.height) (2 * img.height)
    have rlt : (2 * (400 * img.width) + img.height) % (2 * img.height) < 2 * img.height :=
      Nat.mod_lt _ (by omega)
    generalize hq : (2 * (400 * img.width) + img.height) / (2 * img.height) = q at e ⊢
    generalize hr : (2 * (400 * img.width) + img.height) % (2 * img.height) = r at e rlt
    constructor <;> nlinarith [e, rlt]
  · dsimp only
    rw [not_and_or] at hsm
    have hq1 : 1 ≤ rnd (400 * img.height) img.width := by
      unfold rnd
      rw [Nat.one_le_div_iff (by omega)]
      omega
    rw [Nat.max_eq_right hq1, Nat.max_eq_left (by omega : img.height ≤ img.width)]
    unfold rnd
    have e := Nat.div_add_mod (2 * (400 * img.height) + img.width) (2 * img.width)
    have rlt : (2 * (400 * img.height) + img.width) % (2 * img.width) < 2 * img.width :=
      Nat.mod_lt _ (by omega)
    generalize hq : (2 * (400 * img.height) + img.width) / (2 * img.width) = q at e ⊢
    generalize hr : (2 * (400 * img.height) + img.width) % (2 * img.width) = r at e rlt
    constructor <;> nlinarith [e, rlt]

theorem saved_dims_roundtrip (img : Image) (fmt : String)
    (hw : img.width ≤ 400) (hh : img.height ≤ 400) :
    savedWidth (b64decode (b64encode (img.save fmt))) = img.width ∧
    savedHeight (b64decode (b64encode (img.save fmt))) = img.height := by
  have hr : b64decode (b64encode (img.save fmt))
      = (img.save fmt).map (fun b => b % 256) := b64_roundtrip _
  rw [hr]
  unfold Image.save savedWidth savedHeight
  simp only [List.cons_append, List.nil_append, List.map_cons,
    List.getD_cons_zero, List.getD_cons_succ]
  omega

/-! ### Case analysis of the inner loop body -/

theorem handle_path_not_exists (fs : FS) (p : String) (h : fs.pathExists p = false) :
    handle_path fs p = { src := placeholder, printed := [], reads := [] } := by
  simp [handle_path, h]

theorem handle_path_open_error (fs : FS) (p e : String)
    (hex : fs.pathExists p = true) (ho : fs.openImage p = Except.error e) :
    handle_path fs p = { src := placeholder, printed := [failMsg p e], reads := [p] } := by
  simp [handle_path, hex, ho]

theorem handle_path_save_error (fs : FS) (p e : String) (img : Image)
    (hex : fs.pathExists p = true) (ho : fs.openImage p = Except.ok img)
    (hs : fs.saveErr img.thumbnail (format_type p) = some e) :
    handle_path fs p = { src := placeholder, printed := [failMsg p e], reads := [p] } := by
  simp [handle_path, hex, ho, hs]

theorem handle_path_success (fs : FS) (p : String) (img : Image)
    (hex : fs.pathExists p = true) (ho : fs.openImage p = Except.ok img)
    (hs : fs.saveErr img.thumbnail (format_type p) = none) :
    handle_path fs p =
      { src := "data:image/" ++ str_lower (format_type p) ++ ";base64," ++
          b64encode (Image.save img.thumbnail (format_type p))
        printed := []
        reads := [p] } := by
  simp [handle_path, hex, ho, hs]

theorem handle_path_cases (fs : FS) (p : String) :
    (fs.pathExists p = false ∧
      handle_path fs p = { src := placeholder, printed := [], reads := [] }) ∨
    (fs.pathExists p = true ∧
      ((∃ e, handle_path fs p =
          { src := placeholder, printed := [failMsg p e], reads := [p] }) ∨
       (∃ img, fs.openImage p = Except.ok img ∧
          fs.saveErr img.thumbnail (format_type p) = none ∧
          handle_path fs p =
            { src := "data:image/" ++ str_lower (format_type p) ++ ";base64," ++
                b64encode (Image.save img.thumbnail (format_type p))
              printed := []
              reads := [p] }))) := by
  by_cases hex : fs.pathExists p = true
  · refine Or.inr ⟨hex, ?_⟩
    cases ho : fs.openImage p with
    | ok img =>
      cases hs : fs.saveErr img.thumbnail (format_type p) with
      | none => exact Or.inr ⟨img, rfl, hs, handle_path_success fs p img hex ho hs⟩
      | some e => exact Or.inl ⟨e, handle_path_save_error fs p e img hex ho hs⟩
    | error e => exact Or.inl ⟨e, handle_path_open_error fs p e hex ho⟩
  · rw [Bool.not_eq_true] at hex
    exact Or.inl ⟨hex, handle_path_not_exists fs p hex⟩

theorem handle_path_reads_sub (fs : FS) (p q : String)
    (h : q ∈ (handle_path fs p).reads) : q = p ∧ fs.pathExists p = true := by
  rcases handle_path_cases fs p with ⟨hex, he⟩ | ⟨hex, ⟨e, he⟩ | ⟨img, _, _, he⟩⟩
  · rw [he] at h
    simp at h
  · rw [he] at h
    simp at h
    exact ⟨h, hex⟩
  · rw [he] at h
    simp at h
    exact ⟨h, hex⟩

theorem handle_path_printed_shape (fs : FS) (p msg : String)
    (h : msg ∈ (handle_path fs p).printed) : ∃ e, msg = failMsg p e := by
  rcases handle_path_cases fs p with ⟨hex, he⟩ | ⟨hex, ⟨e, he⟩ | ⟨img, _, _, he⟩⟩
  · rw [he] at h
    simp at h
  · rw [he] at h
    simp at h
    exact ⟨e, h⟩
  · rw [he] at h
    simp at h

/-! ### Projections of the loop state -/

theorem foldl_body_marker (fs : FS) :
    ∀ (l : List (String × List String)) (s : PyState),
      (l.foldl (load_body fs) s).marker_images_paths = s.marker_images_paths
  | [], _ => rfl
  | nv :: t, s => by
    rw [List.foldl_cons]
    exact foldl_body_marker fs t (load_body fs s nv)

theorem foldl_body_printed (fs : FS) :
    ∀ (l : List (String × List String)) (s : PyState),
      (l.foldl (load_body fs) s).printed
        = s.printed ++ l.flatMap (fun nv => printed_of fs nv.2)
  | [], s => by simp
  | nv :: t, s => by
    rw [List.foldl_cons, foldl_body_printed fs t (load_body fs s nv)]
    simp [load_body]

theorem foldl_body_reads (fs : FS) :
    ∀ (l : List (String × List String)) (s : PyState),
      (l.foldl (load_body fs) s).reads
        = s.reads ++ l.flatMap (fun nv => reads_of fs nv.2)
  | [], s => by simp
  | nv :: t, s => by
    rw [List.foldl_cons, foldl_body_reads fs t (load_body fs s nv)]
    simp [load_body]

theorem foldl_body_image_map (fs : FS) :
    ∀ (l : List (String × List String)) (s : PyState),
      (l.foldl (load_body fs) s).image_map
        = l.foldl (fun im nv => dictInsert im nv.1 (img_srcs fs nv.2)) s.image_map
  | [], _ => rfl
  | nv :: t, s => by
    rw [List.foldl_cons, List.foldl_cons]
    exact foldl_body_image_map fs t (load_body fs s nv)

/-! ### Dictionary lemmas -/

theorem dictInsert_fresh (m : List (String × List String)) (k : String) (v : List String)
    (h : k ∉ keys m) : dictInsert m k v = m ++ [(k, v)] := by
  have hc : (m.any fun kv => kv.1 = k) = false := by
    rw [List.any_eq_false]
    intro x hx
    simp only [decide_eq_true_eq]
    intro hxk
    exact h (List.mem_map.mpr ⟨x, hx, hxk⟩)
  unfold dictInsert
  rw [hc]
  simp

theorem foldl_dictInsert (fs : FS) :
    ∀ (l : List (String × List String)) (acc : List (String × List String)),
      (keys acc ++ keys l).Nodup →
      l.foldl (fun im nv => dictInsert im nv.1 (img_srcs fs nv.2)) acc
        = acc ++ l.map (fun nv => (nv.1, img_srcs fs nv.2))
  | [], acc => fun _ => by simp
  | nv :: t, acc => fun h => by
    have hsplit : keys acc ++ keys (nv :: t) = keys acc ++ nv.1 :: keys t := by
      simp [keys]
    rw [hsplit, List.nodup_append] at h
    obtain ⟨h1, h2, hd⟩ := h
    have hk : nv.1 ∉ keys acc := fun hmem => hd hmem (by simp)
    rw [List.foldl_cons, dictInsert_fresh acc nv.1 (img_srcs fs nv.2) hk]
    have h' : (keys (acc ++ [(nv.1, img_srcs fs nv.2)]) ++ keys t).Nodup := by
      have : keys (acc ++ [(nv.1, img_srcs fs nv.2)]) ++ keys t
          = keys acc ++ nv.1 :: keys t := by
        simp [keys]
      rw [this, List.nodup_append]
      exact ⟨h1, h2, hd⟩
    rw [foldl_dictInsert fs t (acc ++ [(nv.1, img_srcs fs nv.2)]) h']
    simp

theorem load_image_map_eq (fs : FS) (input : List (String × List String))
    (h : (keys input).Nodup) :
    (load_images_to_map fs (initState input)).image_map
      = input.map (fun nv => (nv.1, img_srcs fs nv.2)) := by
  unfold load_images_to_map initState
  rw [foldl_body_image_map]
  have h0 : (keys ([] : List (String × List String)) ++ keys input).Nodup := by
    simpa [keys] using h
  simpa using foldl_dictInsert fs input [] h0

theorem dictGet_map (f : List String → List String) :
    ∀ (l : List (String × List String)) (k : String),
      dictGet (l.map (fun nv => (nv.1, f nv.2))) k = (dictGet l k).map f
  | [], _ => rfl
  | nv :: t, k => by
    by_cases hk : nv.1 = k
    · simp [dictGet, List.find?, hk]
    · have ih := dictGet_map f t k
      simp [dictGet, List.find?, hk] at ih ⊢
      exact ih

theorem dictGet_mem :
    ∀ (l : List (String × List String)) (k : String) (v : List String),
      dictGet l k = some v → (k, v) ∈ l
  | [], k, v => by
    intro h
    simp [dictGet] at h
  | nv :: t, k, v => by
    intro h
    by_cases hk : nv.1 = k
    · simp [dictGet, List.find?, hk] at h
      subst hk
      rw [← h]
      simp
    · have := dictGet_mem t k v (by simpa [dictGet, List.find?, hk] using h)
      exact List.mem_cons_of_mem nv this

theorem load_printed_eq (fs : FS) (input : List (String × List String)) :
    (load_images_to_map fs (initState input)).printed
      = input.flatMap (fun nv => printed_of fs nv.2) := by
  unfold load_images_to_map
  rw [foldl_body_printed]
  simp [initState]

theorem load_reads_eq (fs : FS) (input : List (String × List String)) :
    (load_images_to_map fs (initState input)).reads
      = input.flatMap (fun nv => reads_of fs nv.2) := by
  unfold load_images_to_map
  rw [foldl_body_reads]
  simp [initState]

/-! ### The claims -/

/-- C1: for every input mapping (a Python dict, so with distinct keys), the
output mapping of `load_images_to_map` has exactly the same key set as the
input, and for every name present in the input the output list for that
name has the same length as the input list of paths. -/
theorem load_keys_and_lengths (fs : FS) (input : List (String × List String))
    (h : (keys input).Nodup) :
    keys (load_images_to_map fs (initState input)).image_map = keys input ∧
    ∀ name ps, dictGet input name = some ps →
      ∃ out, dictGet (load_images_to_map fs (initState input)).image_map name = some out ∧
        out.length = ps.length := by
  rw [load_image_map_eq fs input h]
  constructor
  · simp [keys]
  · intro name ps hget
    refine ⟨ps.map (fun p => (handle_path fs p).src), ?_, by simp⟩
    rw [dictGet_map (img_srcs fs) input name, hget]
    rfl

/-- C2: for every input path that does not exist, the corresponding output
entry (same name, same position) is exactly the placeholder URL, and that
path is never read. -/
theorem missing_path_placeholder_no_read (fs : FS) (input : List (String × List String))
    (name p : String) (ps : List String) (j : Nat) (h : (keys input).Nodup)
    (hget : dictGet input name = some ps) (hj : ps[j]? = some p)
    (hex : fs.pathExists p = false) :
    ∃ out, dictGet (load_images_to_map fs (initState input)).image_map name = some out ∧
      out[j]? = some placeholder ∧
      p ∉ (load_images_to_map fs (initState input)).reads := by
  refine ⟨ps.map (fun q => (handle_path fs q).src), ?_, ?_, ?_⟩
  · rw [load_image_map_eq fs input h, dictGet_map (img_srcs fs) input name, hget]
    rfl
  · rw [List.getElem?_map, hj]
    simp [handle_path_not_exists fs p hex]
  · rw [load_reads_eq]
    intro hmem
    rw [List.mem_flatMap] at hmem
    obtain ⟨nv, _, hmem2⟩ := hmem
    unfold reads_of at hmem2
    rw [List.mem_flatMap] at hmem2
    obtain ⟨q, _, hq⟩ := hmem2
    obtain ⟨rfl, hexq⟩ := handle_path_reads_sub fs q p hq
    simp [hexq] at hex

/-- C3: a file that exists but fails to open or to save yields the
placeholder at its own position, the diagnostic line naming the path and
the error is printed, every other position of the same point of interest
still carries its own normal result, and every point of interest of the
input (the failing one included) still receives its normal pointwise
result list. -/
theorem failure_logged_and_isolated (fs : FS) (input : List (String × List String))
    (name p e : String) (ps : List String) (j : Nat) (h : (keys input).Nodup)
    (hget : dictGet input name = some ps) (hj : ps[j]? = some p)
    (hex : fs.pathExists p = true)
    (hfail : fs.openImage p = Except.error e ∨
      ∃ img, fs.openImage p = Except.ok img ∧
        fs.saveErr img.thumbnail (format_type p) = some e) :
    ∃ out, dictGet (load_images_to_map fs (initState input)).image_map name = some out ∧
      out[j]? = some placeholder ∧
      failMsg p e ∈ (load_images_to_map fs (initState input)).printed ∧
      (∀ k, k ≠ j → out[k]? = (ps[k]?).map (fun q => (handle_path fs q).src)) ∧
      ∀ name2 ps2, dictGet input name2 = some ps2 →
        dictGet (load_images_to_map fs (initState input)).image_map name2
          = some (ps2.map (fun q => (handle_path fs q).src)) := by
  have hh : handle_path fs p
      = { src := placeholder, printed := [failMsg p e], reads := [p] } := by
    rcases hfail with he | ⟨img, ho, hs⟩
    · exact handle_path_open_error fs p e hex he
    · exact handle_path_save_error fs p e img hex ho hs
  refine ⟨ps.map (fun q => (handle_path fs q).src), ?_, ?_, ?_, ?_, ?_⟩
  · rw [load_image_map_eq fs input h, dictGet_map (img_srcs fs) input name, hget]
    rfl
  · rw [List.getElem?_map, hj]
    simp [hh]
  · rw [load_printed_eq, List.mem_flatMap]
    refine ⟨(name, ps), dictGet_mem input name ps hget, ?_⟩
    unfold printed_of
    rw [List.mem_flatMap]
    exact ⟨p, List.getElem?_mem hj, by rw [hh]; simp⟩
  · intro k _
    rw [List.getElem?_map]
  · intro name2 ps2 hget2
    rw [load_image_map_eq fs input h, dictGet_map (img_srcs fs) input name2, hget2]
    rfl

/-- C6: the output is positional: the list for a name is the pointwise
image of that name's path list, so the i-th output element is derived from
the i-th input path; in particular for paths `[A, B, C]` with `B` missing
the output is `[encoded A, placeholder, encoded C]` in that order. -/
theorem load_order_preserved (fs : FS) (input : List (String × List String))
    (name : String) (ps : List String) (h : (keys input).Nodup)
    (hget : dictGet input name = some ps) :
    dictGet (load_images_to_map fs (initState input)).image_map name
      = some (ps.map (fun p => (handle_path fs p).src)) ∧
    ∀ A B C, ps = [A, B, C] → fs.pathExists B = false →
      dictGet (load_images_to_map fs (initState input)).image_map name
        = some [(handle_path fs A).src, placeholder, (handle_path fs C).src] := by
  have hmain : dictGet (load_images_to_map fs (initState input)).image_map name
      = some (ps.map (fun p => (handle_path fs p).src)) := by
    rw [load_image_map_eq fs input h, dictGet_map (img_srcs fs) input name, hget]
    rfl
  refine ⟨hmain, ?_⟩
  intro A B C hps hB
  subst hps
  rw [hmain]
  simp [handle_path_not_exists fs B hB]

/-- C4: for an existing, successfully processed file the output format is
selected by the file extension — JPEG when the lowercased extension is
`.jpg` or `.jpeg`, otherwise PNG — and the emitted string carries the
matching data-URI head. -/
theorem format_selected_by_extension (fs : FS) (p : String) (img : Image)
    (hex : fs.pathExists p = true) (ho : fs.openImage p = Except.ok img)
    (hs : fs.saveErr img.thumbnail (format_type p) = none) :
    ((str_lower (pathSuffix p) = ".jpg" ∨ str_lower (pathSuffix p) = ".jpeg") →
      (handle_path fs p).src =
        "data:image/jpeg;base64," ++ b64encode (Image.save img.thumbnail "JPEG")) ∧
    (¬(str_lower (pathSuffix p) = ".jpg" ∨ str_lower (pathSuffix p) = ".jpeg") →
      (handle_path fs p).src =
        "data:image/png;base64," ++ b64encode (Image.save img.thumbnail "PNG")) := by
  constructor
  · intro hcase
    have hft : format_type p = "JPEG" := by
      unfold format_type
      rw [if_pos hcase]
    rw [handle_path_success fs p img hex ho hs]
    dsimp only
    rw [hft]
    rfl
  · intro hcase
    have hft : format_type p = "PNG" := by
      unfold format_type
      rw [if_neg hcase]
    rw [handle_path_success fs p img hex ho hs]
    dsimp only
    rw [hft]
    rfl

/-- C5: for an existing, successfully processed image the emitted entry is
the data URI of the saved thumbnail; the thumbnail fits in the 400 x 400
box, an image already inside the box is left unchanged (no upscaling), the
base64 payload decodes to bytes recording exactly the thumbnail's
dimensions (hence each at most 400), and for non-degenerate images the
shrunken dimensions preserve the aspect ratio up to half-pixel rounding. -/
theorem thumbnail_bounds_and_payload (fs : FS) (p : String) (img : Image)
    (hex : fs.pathExists p = true) (ho : fs.openImage p = Except.ok img)
    (hs : fs.saveErr img.thumbnail (format_type p) = none) :
    (handle_path fs p).src =
      "data:image/" ++ str_lower (format_type p) ++ ";base64," ++
        b64encode (Image.save img.thumbnail (format_type p)) ∧
    img.thumbnail.width ≤ 400 ∧ img.thumbnail.height ≤ 400 ∧
    (img.width ≤ 400 ∧ img.height ≤ 400 → img.thumbnail = img) ∧
    savedWidth (b64decode (b64encode (Image.save img.thumbnail (format_type p))))
      = img.thumbnail.width ∧
    savedHeight (b64decode (b64encode (Image.save img.thumbnail (format_type p))))
      = img.thumbnail.height ∧
    (img.height ≤ 800 * img.width → img.width ≤ 800 * img.height →
      2 * (img.thumbnail.width * img.height) ≤
          2 * (img.width * img.thumbnail.height) + max img.width img.height ∧
      2 * (img.width * img.thumbnail.height) ≤
          2 * (img.thumbnail.width * img.height) + max img.width img.height) := by
  obtain ⟨hw, hh⟩ := thumbnail_le img
  obtain ⟨hsw, hsh⟩ := saved_dims_roundtrip img.thumbnail (format_type p) hw hh
  refine ⟨?_, hw, hh, thumbnail_no_upscale img, hsw, hsh,
    fun h1 h2 => thumbnail_aspect img h1 h2⟩
  rw [handle_path_success fs p img hex ho hs]

/-- Environment in which no path exists and nothing can be read; used for
concrete evaluations. -/
def fsNone : FS :=
  { pathExists := fun _ => false
  , openImage := fun _ => Except.error "unreadable"
  , saveErr := fun _ _ => none }

/-- C7 counterexample: an input mapping a name to the empty list of paths
produces an output mapping that does contain that name (mapped to the
empty list), refuting that such a name is absent from the output. -/
theorem empty_list_name_present_counterexample :
    dictGet (load_images_to_map fsNone (initState [("x", [])])).image_map "x"
      = some [] := by rfl

/-- C7 (amended): a name absent from the input mapping is absent from the
output mapping; a name mapped to the empty list of paths is present in the
output, mapped to the empty list. -/
theorem empty_and_absent_names (fs : FS) (input : List (String × List String))
    (name : String) (h : (keys input).Nodup) :
    (dictGet input name = none →
      dictGet (load_images_to_map fs (initState input)).image_map name = none) ∧
    (dictGet input name = some [] →
      dictGet (load_images_to_map fs (initState input)).image_map name = some []) := by
  rw [load_image_map_eq fs input h, dictGet_map (img_srcs fs) input name]
  constructor
  · intro hg
    rw [hg]
    rfl
  · intro hg
    rw [hg]
    rfl

/-- C8: `load_images_to_map` leaves its input dictionary unchanged, and its
only effects are reads of paths listed in the input and diagnostic lines
for failures. -/
theorem load_no_input_mutation (fs : FS) (input : List (String × List String)) :
    (load_images_to_map fs (initState input)).marker_images_paths = input ∧
    (∀ p, p ∈ (load_images_to_map fs (initState input)).reads →
      ∃ nv, nv ∈ input ∧ p ∈ nv.2) ∧
    (∀ msg, msg ∈ (load_images_to_map fs (initState input)).printed →
      ∃ q e, msg = failMsg q e) := by
  refine ⟨foldl_body_marker fs input _, ?_, ?_⟩
  · intro p hp
    rw [load_reads_eq, List.mem_flatMap] at hp
    obtain ⟨nv, hnv, hp2⟩ := hp
    unfold reads_of at hp2
    rw [List.mem_flatMap] at hp2
    obtain ⟨q, hq, hpq⟩ := hp2
    obtain ⟨rfl, _⟩ := handle_path_reads_sub fs q p hpq
    exact ⟨nv, hnv, hq⟩
  · intro msg hmsg
    rw [load_printed_eq, List.mem_flatMap] at hmsg
    obtain ⟨nv, _, h2⟩ := hmsg
    unfold printed_of at h2
    rw [List.mem_flatMap] at h2
    obtain ⟨q, _, hq⟩ := h2
    obtain ⟨e, he⟩ := handle_path_printed_shape fs q msg hq
    exact ⟨q, e, he⟩

/-- C10: every string in every output list is either exactly the
placeholder URL or a JPEG or PNG data URI whose payload is the base64
encoding of some byte list. -/
theorem output_strings_shape (fs : FS) (input : List (String × List String))
    (h : (keys input).Nodup) :
    ∀ nv, nv ∈ (load_images_to_map fs (initState input)).image_map →
      ∀ s, s ∈ nv.2 →
        s = placeholder ∨
        (∃ bs, s = "data:image/jpeg;base64," ++ b64encode bs) ∨
        (∃ bs, s = "data:image/png;base64," ++ b64encode bs) := by
  intro nv hnv s hs
  rw [load_image_map_eq fs input h, List.mem_map] at hnv
  obtain ⟨mv, _, rfl⟩ := hnv
  have hs2 : s ∈ img_srcs fs mv.2 := hs
  unfold img_srcs at hs2
  rw [List.mem_map] at hs2
  obtain ⟨p, _, rfl⟩ := hs2
  rcases handle_path_cases fs p with ⟨_, he⟩ | ⟨_, ⟨e, he⟩ | ⟨img, _, _, he⟩⟩
  · rw [he]
    exact Or.inl rfl
  · rw [he]
    exact Or.inl rfl
  · rw [he]
    dsimp only
    unfold format_type
    split_ifs with hft
    · exact Or.inr (Or.inl ⟨Image.save img.thumbnail "JPEG", rfl⟩)
    · exact Or.inr (Or.inr ⟨Image.save img.thumbnail "PNG", rfl⟩)

/-! ### Popup assembly of build_map -/

/-- The popup HTML built for one marker by `build_map`
(lines 133-142 of `src/IntMap.py`): when the name is a key of the encoded
image mapping the description is followed by an image-tag block, otherwise
the popup is the plain-text name and description only. -/
def popup_html (image_map : List (String × List String))
    (name description : String) : String :=
  match dictGet image_map name with
  | some srcs =>
      "<b>" ++ name ++ "</b><br><small>" ++ description ++ "</small><br>" ++
        String.intercalate "<br>"
          (srcs.map (fun src =>
            "<img src=\"" ++ src ++ "\" width=\"280\" alt=\"" ++ name ++ " image\">"))
  | none => "<b>" ++ name ++ "</b><br><small>" ++ description ++ "</small>"

/-- Modelled from the spec: the generated HTML document embeds, for each
marker of `build_map`, the popup HTML built for it; the library boilerplate
around the popups (map scaffolding, tile layers, controls) is not modelled,
so the document is the joined popup HTML of the markers in order. -/
def map_document (fs : FS) (poi_markers : List (String × String))
    (marker_image_paths : List (String × List String)) : String :=
  String.intercalate "\n"
    (poi_markers.map (fun nd =>
      popup_html (load_images_to_map fs (initState marker_image_paths)).image_map
        nd.1 nd.2))

/-- Bool test: is the first list an initial segment of the second? -/
def isPrefOf : List Char → List Char → Bool
  | [], _ => true
  | _ :: _, [] => false
  | a :: as, b :: bs => a == b && isPrefOf as bs

/-- Bool test: does `needle` occur as a contiguous run inside `hay`? -/
def containsSub (needle : List Char) : List Char → Bool
  | [] => isPrefOf needle []
  | c :: t => isPrefOf needle (c :: t) || containsSub needle t

/-- C9: a point of interest whose name is not a key of the encoded-image
mapping gets the plain-text popup (its name and description between fixed
text-only tags); and the document generated for one point of interest with
no images contains that name and contains no data-URI head, no base64
marker and no image tag. -/
theorem plain_text_popup_no_images :
    (∀ image_map name description, dictGet image_map name = none →
      popup_html image_map name description =
        "<b>" ++ name ++ "</b><br><small>" ++ description ++ "</small>") ∧
    containsSub "Leeghwaterplas".toList
      (map_document fsNone [("Leeghwaterplas", "Onze gekozen locatie")] []).toList
      = true ∧
    containsSub "data:image/".toList
      (map_document fsNone [("Leeghwaterplas", "Onze gekozen locatie")] []).toList
      = false ∧
    containsSub ";base64,".toList
      (map_document fsNone [("Leeghwaterplas", "Onze gekozen locatie")] []).toList
      = false ∧
    containsSub "<img".toList
      (map_document fsNone [("Leeghwaterplas", "Onze gekozen locatie")] []).toList
      = false := by
  refine ⟨?_, by decide, by decide, by decide, by decide⟩
  intro image_map name description hget
  unfold popup_html
  rw [hget]

/-! ### Concrete instantiations -/

/-- A concrete oversized image used in concrete instantiations. -/
def imgA : Image := { width := 500, height := 300, data := [1, 2, 3] }

/-- Concrete environment: `a.jpg` opens as `imgA`, `b.jpg` exists but fails
to open, `c.png` opens as a small image, any other path does not exist;
saving never fails. -/
def fsW : FS :=
  { pathExists := fun p => p = "a.jpg" ∨ p = "b.jpg" ∨ p = "c.png"
  , openImage := fun p =>
      if p = "a.jpg" then Except.ok imgA
      else if p = "c.png" then Except.ok { width := 50, height := 60, data := [7] }
      else Except.error "broken"
  , saveErr := fun _ _ => none }

/-- Concrete input mapping used in concrete instantiations. -/
def inputW : List (String × List String) :=
  [("poi", ["a.jpg", "b.jpg", "miss.png"]),
   ("trio", ["a.jpg", "miss.png", "c.png"]),
   ("empty", [])]

theorem load_keys_and_lengths_witness :
    (keys inputW).Nodup ∧
    (keys (load_images_to_map fsW (initState inputW)).image_map = keys inputW ∧
     ∀ name ps, dictGet inputW name = some ps →
       ∃ out, dictGet (load_images_to_map fsW (initState inputW)).image_map name
           = some out ∧ out.length = ps.length) :=
  ⟨by decide, load_keys_and_lengths fsW inputW (by decide)⟩

theorem missing_path_witness :
    fsW.pathExists "miss.png" = false ∧
    (∃ out, dictGet (load_images_to_map fsW (initState inputW)).image_map "poi"
        = some out ∧
      out[2]? = some placeholder ∧
      "miss.png" ∉ (load_images_to_map fsW (initState inputW)).reads) :=
  ⟨by decide,
   missing_path_placeholder_no_read fsW inputW "poi" "miss.png"
     ["a.jpg", "b.jpg", "miss.png"] 2 (by decide) (by decide) (by decide) (by decide)⟩

theorem failure_logged_witness :
    fsW.pathExists "b.jpg" = true ∧
    fsW.openImage "b.jpg" = Except.error "broken" ∧
    (∃ out, dictGet (load_images_to_map fsW (initState inputW)).image_map "poi"
        = some out ∧
      out[1]? = some placeholder ∧
      failMsg "b.jpg" "broken" ∈ (load_images_to_map fsW (initState inputW)).printed ∧
      (∀ k, k ≠ 1 → out[k]? = (["a.jpg", "b.jpg", "miss.png"][k]?).map
        (fun q => (handle_path fsW q).src)) ∧
      ∀ name2 ps2, dictGet inputW name2 = some ps2 →
        dictGet (load_images_to_map fsW (initState inputW)).image_map name2
          = some (ps2.map (fun q => (handle_path fsW q).src))) :=
  ⟨by decide, by rfl,
   failure_logged_and_isolated fsW inputW "poi" "b.jpg" "broken"
     ["a.jpg", "b.jpg", "miss.png"] 1 (by decide) (by decide) (by decide) (by decide)
     (Or.inl (by rfl))⟩

theorem format_selected_witness :
    fsW.pathExists "a.jpg" = true ∧
    (str_lower (pathSuffix "a.jpg") = ".jpg" ∨
      str_lower (pathSuffix "a.jpg") = ".jpeg") ∧
    (handle_path fsW "a.jpg").src =
      "data:image/jpeg;base64," ++ b64encode (Image.save imgA.thumbnail "JPEG") :=
  ⟨by decide, by decide,
   (format_selected_by_extension fsW "a.jpg" imgA (by decide) (by rfl) (by rfl)).1
     (by decide)⟩

theorem thumbnail_bounds_witness :
    fsW.pathExists "a.jpg" = true ∧
    imgA.thumbnail.width ≤ 400 ∧ imgA.thumbnail.height ≤ 400 :=
  ⟨by decide,
   (thumbnail_bounds_and_payload fsW "a.jpg" imgA (by decide) (by rfl) (by rfl)).2.1,
   (thumbnail_bounds_and_payload fsW "a.jpg" imgA (by decide) (by rfl) (by rfl)).2.2.1⟩

theorem order_preserved_witness :
    (keys inputW).Nodup ∧
    dictGet inputW "trio" = some ["a.jpg", "miss.png", "c.png"] ∧
    fsW.pathExists "miss.png" = false ∧
    dictGet (load_images_to_map fsW (initState inputW)).image_map "trio"
      = some [(handle_path fsW "a.jpg").src, placeholder, (handle_path fsW "c.png").src] :=
  ⟨by decide, by decide, by decide,
   (load_order_preserved fsW inputW "trio" ["a.jpg", "miss.png", "c.png"]
       (by decide) (by decide)).2
     "a.jpg" "miss.png" "c.png" rfl (by decide)⟩

theorem empty_and_absent_witness :
    dictGet inputW "nosuch" = none ∧
    dictGet (load_images_to_map fsW (initState inputW)).image_map "nosuch" = none ∧
    dictGet inputW "empty" = some [] ∧
    dictGet (load_images_to_map fsW (initState inputW)).image_map "empty" = some [] :=
  ⟨by decide,
   (empty_and_absent_names fsW inputW "nosuch" (by decide)).1 (by decide),
   by decide,
   (empty_and_absent_names fsW inputW "empty" (by decide)).2 (by decide)⟩

theorem load_no_input_mutation_witness :
    (load_images_to_map fsW (initState inputW)).marker_images_paths = inputW :=
  (load_no_input_mutation fsW inputW).1

theorem plain_text_popup_witness :
    dictGet ([] : List (String × List String)) "P" = none ∧
    popup_html [] "P" "D" = "<b>" ++ "P" ++ "</b><br><small>" ++ "D" ++ "</small>" :=
  ⟨by decide, plain_text_popup_no_images.1 [] "P" "D" (by decide)⟩

theorem output_strings_shape_witness :
    (keys inputW).Nodup ∧
    (placeholder = placeholder ∨
     (∃ bs, placeholder = "data:image/jpeg;base64," ++ b64encode bs) ∨
     (∃ bs, placeholder = "data:image/png;base64," ++ b64encode bs)) :=
  ⟨by decide,
   output_strings_shape fsW inputW (by decide)
     ("poi", img_srcs fsW ["a.jpg", "b.jpg", "miss.png"]) (by decide)
     placeholder (by decide)⟩
